import Mathlib

/-
Verification of ispmail-userctl (ispmail_userctl.py), a curses-based mail
account administration tool.  This file gives a shallow embedding of the
pure logic of the program: quota string parsing and formatting, and the key
handling state machines of the widget classes (Menu, Select, SingleInput,
Info, Confirm).  Python floats are modelled as rationals; every quota value
appearing in the theorems below is exactly representable in IEEE double
precision and every arithmetic step on it is exact, so the rational model
agrees with the float computation of the source.  Python strings are
modelled as Lean strings / lists of characters; the regular expression and
character classes of the source are modelled for ASCII input, which covers
every input considered here.
-/

/-! ### Curses key codes used by the widget run loops -/

def KEY_ENTER : Nat := 343

def KEY_UP : Nat := 259

def KEY_DOWN : Nat := 258

def KEY_NPAGE : Nat := 338

def KEY_PPAGE : Nat := 339

def KEY_BACKSPACE : Nat := 263

/-! ### Quota parsing and formatting

`parse_quota` (ispmail_userctl.py lines 102-123) matches the leading part of
its argument against the regex `([0-9.,]+)\s*(\w+)?` and converts group 1
with Python `float`; `format_quota` (lines 83-99) renders a byte count with
1000-based units and two decimals.
-/

/-- Character class `[0-9.,]` of the quota regex. -/
def isQuotaNumChar (c : Char) : Bool := c.isDigit || c == '.' || c == ','

/-- Character class `\s` of the quota regex (ASCII part). -/
def isPySpace (c : Char) : Bool :=
  c == ' ' || c == '\t' || c == '\n' || c == '\r' || c == '\x0b' || c == '\x0c'

/-- Character class `\w` of the quota regex (ASCII part). -/
def isPyWordChar (c : Char) : Bool := c.isAlphanum || c == '_'

/-- Python `str.casefold` restricted to ASCII input. -/
def pyCasefold (cs : List Char) : List Char := cs.map Char.toLower

/-- Value of a list of decimal digit characters read left to right. -/
def digitsVal (cs : List Char) : ℕ := cs.foldl (fun a c => 10 * a + (c.toNat - 48)) 0

/-- Syntactic part of Python `float` applied to a token over the alphabet
`[0-9.,]`: conversion succeeds iff the token has no comma, at most one dot
and at least one digit.  Returns the digit string value (integer and
fractional digits concatenated) together with the number of fractional
digits. -/
def pyFloatParts (cs : List Char) : Option (ℕ × ℕ) :=
  if cs.contains ',' then none
  else if 1 < (cs.filter (fun c => c == '.')).length then none
  else if ¬ cs.any Char.isDigit then none
  else
    some (digitsVal ((cs.takeWhile (fun c => c ≠ '.')) ++ ((cs.dropWhile (fun c => c ≠ '.')).drop 1)),
      ((cs.dropWhile (fun c => c ≠ '.')).drop 1).length)

/-- Python `float` on a `[0-9.,]` token, as an exact rational. -/
def pyFloatOfToken (cs : List Char) : Option ℚ :=
  (pyFloatParts cs).map (fun p => (p.1 : ℚ) / 10 ^ p.2)

/-- Model of `re.match(r'([0-9.,]+)\s*(\w+)?', s)`: `none` when the match
fails (first character outside `[0-9.,]`), otherwise the contents of group 1
and of group 2 (group 2 unmatched is represented by the empty list).  All
three regex pieces are greedy and nothing after them needs to match, so each
group is the maximal prefix of its character class. -/
def quotaScan (cs : List Char) : Option (List Char × List Char) :=
  if cs.takeWhile isQuotaNumChar = [] then none
  else
    some (cs.takeWhile isQuotaNumChar,
      ((cs.dropWhile isQuotaNumChar).dropWhile isPySpace).takeWhile isPyWordChar)

/-- Group 2 of the quota regex (empty when unmatched). -/
def quotaWord (cs : List Char) : List Char :=
  ((cs.dropWhile isQuotaNumChar).dropWhile isPySpace).takeWhile isPyWordChar

/-- The part of the input actually consumed by the quota regex: group 1, the
whitespace run, and group 2. -/
def quotaConsumed (cs : List Char) : List Char :=
  cs.takeWhile isQuotaNumChar
    ++ (cs.dropWhile isQuotaNumChar).takeWhile isPySpace
    ++ ((cs.dropWhile isQuotaNumChar).dropWhile isPySpace).takeWhile isPyWordChar

/-- `parse_quota` on a list of characters.  Error values carry the message of
the `ValueError` raised by the source (the middle one is raised by `float`
itself and propagates out of `parse_quota` unhandled). -/
def parseQuotaList (cs : List Char) : Except String ℚ :=
  match quotaScan cs with
  | none => .error ("invalid quota: '" ++ String.mk cs ++ "'")
  | some (num, word) =>
    match pyFloatOfToken num with
    | none => .error ("could not convert string to float: '" ++ String.mk num ++ "'")
    | some amount =>
      if word = [] then .ok amount
      else if pyCasefold word = ['k', 'b'] then .ok (1000 * amount)
      else if pyCasefold word = ['m', 'b'] then .ok (1000 * 1000 * amount)
      else if pyCasefold word = ['g', 'b'] then .ok (1000 * 1000 * 1000 * amount)
      else .error ("invalid quota quantifier: '" ++ String.mk (pyCasefold word) ++ "'")

/-- `parse_quota` (ispmail_userctl.py lines 102-123). -/
def parse_quota (s : String) : Except String ℚ := parseQuotaList s.toList

/-- Rendering of `'%.2f' % q` for a nonnegative value `n` of hundredths. -/
def fmt2n (n : ℕ) : String :=
  toString (n / 100) ++ "." ++
    (if n % 100 < 10 then "0" ++ toString (n % 100) else toString (n % 100))

/-- Python `f'{q:.2f}'` for nonnegative `q`.  Rounding is half-up here while
Python rounds half-to-even, but the two agree on every value reached in this
file (all of them are exact multiples of 1/100). -/
def fmt2 (q : ℚ) : String := fmt2n (⌊q * 100 + 1 / 2⌋.toNat)

/-- `format_quota` (ispmail_userctl.py lines 83-99). -/
def format_quota (quota : ℚ) : String :=
  if quota = 0 then "unlimited"
  else if quota < 1000 then fmt2 quota ++ " bytes"
  else if quota / 1000 < 1000 then fmt2 (quota / 1000) ++ " KB"
  else if quota / 1000 / 1000 < 1000 then fmt2 (quota / 1000 / 1000) ++ " MB"
  else fmt2 (quota / 1000 / 1000 / 1000) ++ " GB"

/-- `format_quota (parse_quota s)`, the round trip of claim C7. -/
def quotaRoundTrip (s : String) : Except String String :=
  (parse_quota s).map format_quota

/-! ### Scroll / navigation events shared by Select and Info

Both run loops map KEY_UP to a move of -1, KEY_DOWN to +1, KEY_NPAGE to +15
and KEY_PPAGE to -15 (ispmail_userctl.py lines 494-501 and 674-681).
-/

inductive ScrollEv where
  | up
  | down
  | pageUp
  | pageDown
deriving DecidableEq

def scrollDelta : ScrollEv → ℤ
  | .up => -1
  | .down => 1
  | .pageUp => -15
  | .pageDown => 15

/-! ### Info (scrollable read-only pane) -/

/-- `Info._navigate` (lines 636-641): two consecutive `if` statements, the
second one not guarded by `max`, so the clamp target `size - h + 4` is
applied even when it is negative.  `size` is the rendered content height
measured in `draw`, `h` the window height. -/
def infoNavigate (size h pos num : ℤ) : ℤ :=
  if (if pos + num < 0 then 0 else pos + num) > size - h + 4 then size - h + 4
  else if pos + num < 0 then 0 else pos + num

/-- The scroll offset of `Info.run` after a sequence of navigation events. -/
def infoRunPos (size h pos : ℤ) (evs : List ScrollEv) : ℤ :=
  evs.foldl (fun p e => infoNavigate size h p (scrollDelta e)) pos

/-! ### Select (selectable list) -/

/-- `Select.__init__` (lines 414-432): the payload list handed in by the
caller, with the synthetic `('Return to <top>', None)` entry appended.
Genuine payloads are `some`, the synthetic entry's absent payload is
`none`. -/
def selectItems {α : Type} (items : List (String × α)) (topTitle : String) :
    List (String × Option α) :=
  items.map (fun it => (it.1, some it.2)) ++ [("Return to " ++ topTitle, none)]

/-- `Select._navigate` (lines 435-440): add, clamp below at 0, clamp above at
`len(items) - 1` (an `elif`, so at most one clamp fires). -/
def selNavigate (L : ℕ) (pos num : ℤ) : ℤ :=
  if pos + num < 0 then 0
  else if pos + num ≥ (L : ℤ) then (L : ℤ) - 1
  else pos + num

/-- The highlighted index of `Select.run` after a sequence of navigation
events, starting from position `pos`. -/
def selRunPos (L : ℕ) (pos : ℤ) (evs : List ScrollEv) : ℤ :=
  evs.foldl (fun p e => selNavigate L p (scrollDelta e)) pos

/-! ### Confirm (two-option dialog) -/

inductive ConfirmResult where
  | OPTA
  | OPTB
  | OPTNONE
deriving DecidableEq

/-- `Confirm.__init__` sets `opta_active = True` (line 361). -/
def confirmInit : Bool := true

/-- Effect of one non-terminating key on `opta_active` (lines 400-404):
KEY_UP selects option A, KEY_DOWN selects option B, anything else leaves the
highlight unchanged. -/
def confirmStep (optaActive : Bool) (k : ℕ) : Bool :=
  if k = KEY_UP then true
  else if k = KEY_DOWN then false
  else optaActive

/-- `Confirm.run` (lines 382-411) over a list of keys: Enter returns the
highlighted option, `q`/`Q` returns the untouched initial `OPTNONE`; other
keys update the highlight and loop.  `none` means the key list was exhausted
with the loop still blocked on `getch`. -/
def confirmRun (optaActive : Bool) : List ℕ → Option ConfirmResult
  | [] => none
  | k :: rest =>
    if k = KEY_ENTER ∨ k = 10 then
      some (if optaActive then ConfirmResult.OPTA else ConfirmResult.OPTB)
    else if k = 113 ∨ k = 81 then some ConfirmResult.OPTNONE
    else confirmRun (confirmStep optaActive k) rest

/-! ### SingleInput (single-line text prompt) -/

/-- `curses.ascii.isgraph`: printable ASCII except space. -/
def pyIsGraph (k : ℕ) : Bool := 33 ≤ k && k ≤ 126

/-- Mutable state of `SingleInput.run`: which of the input field / cancel
affordance has focus, and the accumulated buffer. -/
structure SIState where
  inputActive : Bool
  inputString : String
deriving DecidableEq

/-- `SingleInput.__init__` (lines 530-531): empty buffer, input focused. -/
def siInit : SIState := { inputActive := true, inputString := "" }

/-- Effect of one non-Enter key in `SingleInput.run` (lines 593-607):
KEY_UP focuses the input field, KEY_DOWN the cancel affordance; while the
input field is focused a graphic character is appended and Backspace (either
KEY_BACKSPACE or `\b`) removes the last character of a nonempty buffer. -/
def siStep (st : SIState) (k : ℕ) : SIState :=
  if k = KEY_UP then { st with inputActive := true }
  else if k = KEY_DOWN then { st with inputActive := false }
  else if st.inputActive ∧ pyIsGraph k then
    { st with inputString := st.inputString.push (Char.ofNat k) }
  else if st.inputActive ∧ (k = KEY_BACKSPACE ∨ k = 8) ∧ st.inputString ≠ "" then
    { st with inputString := st.inputString.dropRight 1 }
  else st

/-- `SingleInput.run` (lines 576-611): only Enter leaves the loop; the result
is the buffer if the input field is focused at commit time, a distinct `none`
("cancelled") otherwise.  The outer `none` means the key list ran out with
the loop still blocked. -/
def siRun (st : SIState) : List ℕ → Option (Option String)
  | [] => none
  | k :: rest =>
    if k = KEY_ENTER ∨ k = 10 then
      some (if st.inputActive then some st.inputString else none)
    else siRun (siStep st k) rest

/-- Editing events of claim C5: a printable-graphic character or a
Backspace (KEY_BACKSPACE or `\b`). -/
inductive SIEv where
  | ch (c : ℕ)
  | bksp (code : ℕ)
deriving DecidableEq

/-- The key code delivered to `getch` for an editing event. -/
def sievKey : SIEv → ℕ
  | .ch c => c
  | .bksp code => code

/-- Validity of an editing event: characters are graphic, backspace uses one
of the two backspace codes. -/
def sievValid : SIEv → Bool
  | .ch c => pyIsGraph c
  | .bksp code => code == KEY_BACKSPACE || code == 8

/-- The spec-side replay of claim C5: append each character, let Backspace
remove exactly one trailing character (a no-op on the empty buffer). -/
def replay (buf : String) : List SIEv → String
  | [] => buf
  | .ch c :: rest => replay (buf.push (Char.ofNat c)) rest
  | .bksp _ :: rest => replay (buf.dropRight 1) rest

/-! ### Menu (composite menu manager) -/

/-- Python `range(1, L + 1)` as a list. -/
def pyRange1 (L : ℕ) : List ℕ := (List.range L).map (· + 1)

/-- Lazy evaluation of `key in map(ord, map(str, range(1, len(items) + 1)))`
(line 770): walk the indices in order; `ord` of the decimal string of an
index above 9 raises a TypeError the moment it is reached, modelled as
`.error ()`.  For a single-digit index `i`, `ord(str(i)) = 48 + i`. -/
def menuDigitScan (k : ℕ) : List ℕ → Except Unit Bool
  | [] => .ok false
  | i :: rest =>
    if 9 < i then .error ()
    else if k = 48 + i then .ok true
    else menuDigitScan k rest

/-- `Menu._navigate` (lines 714-719), identical clamping to `Select`. -/
def menuNavigate (L : ℕ) (pos num : ℤ) : ℤ :=
  if pos + num < 0 then 0
  else if pos + num ≥ (L : ℤ) then (L : ℤ) - 1
  else pos + num

/-- Outcome of one key in `Menu.run`: leave the loop, keep looping with a new
position, or raise TypeError.  `invoked` lists the item indices whose
callbacks were called while handling the key. -/
inductive MenuOut where
  | exit (invoked : List ℤ)
  | cont (pos : ℤ) (invoked : List ℤ)
  | typeErr
deriving DecidableEq

/-- One iteration of the `Menu.run` key dispatch (lines 749-792).  `cbExit`
gives the truthiness of the callback return value at each item index (the
`do_exit` test of lines 767 and 780). -/
def menuStep (cbExit : ℤ → Bool) (L : ℕ) (pos : ℤ) (k : ℕ) : MenuOut :=
  if k = KEY_ENTER ∨ k = 10 then
    if pos = (L : ℤ) - 1 then .exit []
    else if cbExit pos then .exit [pos] else .cont pos [pos]
  else
    match menuDigitScan k (pyRange1 L) with
    | .error _ => .typeErr
    | .ok true =>
      if (k : ℤ) - 48 - 1 = (L : ℤ) - 1 then .exit []
      else if cbExit ((k : ℤ) - 48 - 1) then .exit [(k : ℤ) - 48 - 1]
      else .cont pos [(k : ℤ) - 48 - 1]
    | .ok false =>
      if k = KEY_UP then .cont (menuNavigate L pos (-1)) []
      else if k = KEY_DOWN then .cont (menuNavigate L pos 1) []
      else if k = 113 ∨ k = 81 then .exit []
      else .cont pos []

/-- `Menu.run` over a list of keys: `.error ()` is an escaped TypeError; an
`.ok` result carries the callback invocations in order and whether the loop
terminated (`false` = key list exhausted, loop still blocked). -/
def menuRun (cbExit : ℤ → Bool) (L : ℕ) : ℤ → List ℕ → Except Unit (List ℤ × Bool)
  | _, [] => .ok ([], false)
  | pos, k :: rest =>
    match menuStep cbExit L pos k with
    | .typeErr => .error ()
    | .exit inv => .ok (inv, true)
    | .cont pos2 inv =>
      match menuRun cbExit L pos2 rest with
      | .error e => .error e
      | .ok (inv2, b) => .ok (inv ++ inv2, b)

/-- `Menu.__init__` (lines 689-712): the caller's item list with the
synthetic exit row appended; its label depends on whether a parent title
exists, and the callback stored for it is `os.abort`. -/
def menuInit {α : Type} (realItems : List (String × α)) (topTitle : Option String)
    (abortCb : α) : List (String × α) :=
  realItems ++ [(match topTitle with
    | some t => "Return to " ++ t
    | none => "Exit and Save Changes", abortCb)]

/-- The workflow callbacks of the program, as opaque tags (their bodies run
database queries and child widgets and are irrelevant to the menu claims). -/
inductive WorkflowCb where
  | domainOverview
  | fullOverview
  | domainAdd
  | search
  | domainSelection
  | manageBlocked
  | saveChanges
  | discardChanges
  | listUsersAliases
  | changePw
  | changeQuota
  | addUser
  | addAlias
  | deleteUser
  | deleteAlias
  | deleteDomainConfirm
  | listBlocked
  | addBlocked
  | removeBlocked
  | blockedReturn
  | osAbort
deriving DecidableEq

/-- The main menu items (`MainApp.__init__`, lines 1596-1605). -/
def main_menu_items : List (String × WorkflowCb) :=
  [("List domains", .domainOverview),
   ("List everything", .fullOverview),
   ("Add domain", .domainAdd),
   ("Search for domain/alias/email", .search),
   ("Manage domain", .domainSelection),
   ("Manage blocked emails", .manageBlocked),
   ("Save changes", .saveChanges),
   ("Discard changes", .discardChanges)]

/-- The per-domain management menu items (`domain_selection_win`,
lines 943-952). -/
def domain_menu_items : List (String × WorkflowCb) :=
  [("List users and aliases", .listUsersAliases),
   ("Change password of an user", .changePw),
   ("Change quota of an user", .changeQuota),
   ("Add user", .addUser),
   ("Add alias", .addAlias),
   ("Delete user", .deleteUser),
   ("Delete alias", .deleteAlias),
   ("Delete domain", .deleteDomainConfirm)]

/-- The blocked-emails menu items (`manage_blocked_emails_win`,
lines 1443-1448), which include a manual return entry on top of the
synthetic one. -/
def blocked_menu_items (topTitle : String) : List (String × WorkflowCb) :=
  [("List blocked entries", .listBlocked),
   ("Add blocked entry", .addBlocked),
   ("Remove blocked entry", .removeBlocked),
   ("Return to " ++ topTitle, .blockedReturn)]

/-! ### Helper lemmas: quota evaluation -/

lemma parseQuotaList_eval_plain (cs num : List Char) (a b : ℕ)
    (hscan : quotaScan cs = some (num, []))
    (hparts : pyFloatParts num = some (a, b)) :
    parseQuotaList cs = .ok ((a : ℚ) / 10 ^ b) := by
  simp [parseQuotaList, hscan, pyFloatOfToken, hparts]

lemma parseQuotaList_eval_kb (cs num word : List Char) (a b : ℕ)
    (hscan : quotaScan cs = some (num, word))
    (hparts : pyFloatParts num = some (a, b))
    (hne : word ≠ []) (hw : pyCasefold word = ['k', 'b']) :
    parseQuotaList cs = .ok (1000 * ((a : ℚ) / 10 ^ b)) := by
  simp [parseQuotaList, hscan, pyFloatOfToken, hparts, hne, hw]

lemma parseQuotaList_eval_mb (cs num word : List Char) (a b : ℕ)
    (hscan : quotaScan cs = some (num, word))
    (hparts : pyFloatParts num = some (a, b))
    (hne : word ≠ []) (hw : pyCasefold word = ['m', 'b']) :
    parseQuotaList cs = .ok (1000 * 1000 * ((a : ℚ) / 10 ^ b)) := by
  have hkb : ¬ pyCasefold word = ['k', 'b'] := by rw [hw]; decide
  simp [parseQuotaList, hscan, pyFloatOfToken, hparts, hne, hw, hkb]

lemma parseQuotaList_eval_gb (cs num word : List Char) (a b : ℕ)
    (hscan : quotaScan cs = some (num, word))
    (hparts : pyFloatParts num = some (a, b))
    (hne : word ≠ []) (hw : pyCasefold word = ['g', 'b']) :
    parseQuotaList cs = .ok (1000 * 1000 * 1000 * ((a : ℚ) / 10 ^ b)) := by
  have hkb : ¬ pyCasefold word = ['k', 'b'] := by rw [hw]; decide
  have hmb : ¬ pyCasefold word = ['m', 'b'] := by rw [hw]; decide
  simp [parseQuotaList, hscan, pyFloatOfToken, hparts, hne, hw, hkb, hmb]

lemma fmt2_eq (q : ℚ) (z : ℤ) (h1 : (z : ℚ) ≤ q * 100 + 1 / 2)
    (h2 : q * 100 + 1 / 2 < z + 1) : fmt2 q = fmt2n z.toNat := by
  rw [fmt2, Int.floor_eq_iff.mpr ⟨h1, h2⟩]

lemma format_quota_bytes (q : ℚ) (h0 : ¬ q = 0) (h1 : q < 1000) :
    format_quota q = fmt2 q ++ " bytes" := by
  simp [format_quota, h0, h1]

lemma format_quota_KB (q : ℚ) (h0 : ¬ q = 0) (h1 : ¬ q < 1000)
    (h2 : q / 1000 < 1000) :
    format_quota q = fmt2 (q / 1000) ++ " KB" := by
  simp [format_quota, h0, h1, h2]

lemma format_quota_MB (q : ℚ) (h0 : ¬ q = 0) (h1 : ¬ q < 1000)
    (h2 : ¬ q / 1000 < 1000) (h3 : q / 1000 / 1000 < 1000) :
    format_quota q = fmt2 (q / 1000 / 1000) ++ " MB" := by
  simp [format_quota, h0, h1, h2, h3]

lemma format_quota_GB (q : ℚ) (h0 : ¬ q = 0) (h1 : ¬ q < 1000)
    (h2 : ¬ q / 1000 < 1000) (h3 : ¬ q / 1000 / 1000 < 1000) :
    format_quota q = fmt2 (q / 1000 / 1000 / 1000) ++ " GB" := by
  simp [format_quota, h0, h1, h2, h3]

lemma parseQuotaList_eval_nomatch (cs : List Char)
    (h : cs.takeWhile isQuotaNumChar = []) :
    parseQuotaList cs = .error ("invalid quota: '" ++ String.mk cs ++ "'") := by
  simp [parseQuotaList, quotaScan, h]

lemma parseQuotaList_eval_badword (cs num word : List Char) (a b : ℕ)
    (hscan : quotaScan cs = some (num, word))
    (hparts : pyFloatParts num = some (a, b))
    (hne : word ≠ []) (hkb : pyCasefold word ≠ ['k', 'b'])
    (hmb : pyCasefold word ≠ ['m', 'b']) (hgb : pyCasefold word ≠ ['g', 'b']) :
    parseQuotaList cs
      = .error ("invalid quota quantifier: '" ++ String.mk (pyCasefold word) ++ "'") := by
  simp [parseQuotaList, hscan, pyFloatOfToken, hparts, hne, hkb, hmb, hgb]

/-! ### Claim C6 -/

/-- C6: `parse_quota "10XB"` raises a ValueError naming the invalid
quantifier, `parse_quota "abc"` raises one naming the invalid quota string,
`parse_quota "0"` returns 0 and `format_quota 0` renders `"unlimited"`. -/
theorem quota_parse_errors_and_zero :
    parse_quota "10XB" = .error "invalid quota quantifier: 'xb'" ∧
    parse_quota "abc" = .error "invalid quota: 'abc'" ∧
    parse_quota "0" = .ok 0 ∧
    format_quota 0 = "unlimited" := by
  refine ⟨?_, ?_, ?_, by simp [format_quota]⟩
  · have h := parseQuotaList_eval_badword "10XB".toList ['1', '0'] ['X', 'B'] 10 0
      (by decide) (by decide) (by decide) (by decide) (by decide) (by decide)
    rw [parse_quota, h]
    congr 1
  · have h := parseQuotaList_eval_nomatch "abc".toList (by decide)
    rw [parse_quota, h]
    congr 1
  · have h := parseQuotaList_eval_plain "0".toList ['0'] 0 0 (by decide) (by decide)
    rw [parse_quota, h]
    congr 1
    norm_num

/-! ### Claim C7 -/

/-- C7: `format_quota (parse_quota s)` reproduces the numeric magnitude of
each well-formed input at two-decimal precision in 1000-based units:
`"500"` renders as `"500.00 bytes"`, `"10KB"` as `"10.00 KB"`, `"2.5MB"` as
`"2.50 MB"`, `"1GB"` as `"1.00 GB"`, and `"0"` as `"unlimited"`. -/
theorem quota_roundtrip_concrete :
    quotaRoundTrip "0" = .ok "unlimited" ∧
    quotaRoundTrip "500" = .ok "500.00 bytes" ∧
    quotaRoundTrip "10KB" = .ok "10.00 KB" ∧
    quotaRoundTrip "2.5MB" = .ok "2.50 MB" ∧
    quotaRoundTrip "1GB" = .ok "1.00 GB" := by
  refine ⟨?_, ?_, ?_, ?_, ?_⟩
  · have hp := parseQuotaList_eval_plain "0".toList ['0'] 0 0 (by decide) (by decide)
    have hv : ((0 : ℕ) : ℚ) / 10 ^ (0 : ℕ) = 0 := by norm_num
    rw [quotaRoundTrip, parse_quota, hp, hv]
    simp [Except.map, format_quota]
  · have hp := parseQuotaList_eval_plain "500".toList ['5', '0', '0'] 500 0
      (by decide) (by decide)
    have hv : ((500 : ℕ) : ℚ) / 10 ^ (0 : ℕ) = 500 := by norm_num
    have hf : format_quota 500 = "500.00 bytes" := by
      rw [format_quota_bytes 500 (by norm_num) (by norm_num),
        fmt2_eq 500 50000 (by norm_num) (by norm_num)]
      decide
    rw [quotaRoundTrip, parse_quota, hp, hv]
    simp [Except.map, hf]
  · have hp := parseQuotaList_eval_kb "10KB".toList ['1', '0'] ['K', 'B'] 10 0
      (by decide) (by decide) (by decide) (by decide)
    have hv : (1000 : ℚ) * (((10 : ℕ) : ℚ) / 10 ^ (0 : ℕ)) = 10000 := by norm_num
    have hf : format_quota 10000 = "10.00 KB" := by
      rw [format_quota_KB 10000 (by norm_num) (by norm_num) (by norm_num),
        fmt2_eq ((10000 : ℚ) / 1000) 1000 (by norm_num) (by norm_num)]
      decide
    rw [quotaRoundTrip, parse_quota, hp, hv]
    simp [Except.map, hf]
  · have hp := parseQuotaList_eval_mb "2.5MB".toList ['2', '.', '5'] ['M', 'B'] 25 1
      (by decide) (by decide) (by decide) (by decide)
    have hv : (1000 : ℚ) * 1000 * (((25 : ℕ) : ℚ) / 10 ^ (1 : ℕ)) = 2500000 := by norm_num
    have hf : format_quota 2500000 = "2.50 MB" := by
      rw [format_quota_MB 2500000 (by norm_num) (by norm_num) (by norm_num) (by norm_num),
        fmt2_eq ((2500000 : ℚ) / 1000 / 1000) 250 (by norm_num) (by norm_num)]
      decide
    rw [quotaRoundTrip, parse_quota, hp, hv]
    simp [Except.map, hf]
  · have hp := parseQuotaList_eval_gb "1GB".toList ['1'] ['G', 'B'] 1 0
      (by decide) (by decide) (by decide) (by decide)
    have hv : (1000 : ℚ) * 1000 * 1000 * (((1 : ℕ) : ℚ) / 10 ^ (0 : ℕ)) = 1000000000 := by
      norm_num
    have hf : format_quota 1000000000 = "1.00 GB" := by
      rw [format_quota_GB 1000000000 (by norm_num) (by norm_num) (by norm_num) (by norm_num),
        fmt2_eq ((1000000000 : ℚ) / 1000 / 1000 / 1000) 100 (by norm_num) (by norm_num)]
      decide
    rw [quotaRoundTrip, parse_quota, hp, hv]
    simp [Except.map, hf]

/-! ### Helper lemmas: takeWhile / dropWhile structure -/

lemma takeWhile_append_all {α : Type} (p : α → Bool) (l1 l2 : List α)
    (h : ∀ a ∈ l1, p a = true) :
    (l1 ++ l2).takeWhile p = l1 ++ l2.takeWhile p := by
  induction l1 with
  | nil => simp
  | cons a t ih =>
    have ha : p a = true := h a (List.mem_cons_self a t)
    simp [List.takeWhile_cons, ha, ih (fun x hx => h x (List.mem_cons_of_mem a hx))]

lemma dropWhile_append_all {α : Type} (p : α → Bool) (l1 l2 : List α)
    (h : ∀ a ∈ l1, p a = true) :
    (l1 ++ l2).dropWhile p = l2.dropWhile p := by
  induction l1 with
  | nil => simp
  | cons a t ih =>
    have ha : p a = true := h a (List.mem_cons_self a t)
    simp [List.dropWhile_cons, ha, ih (fun x hx => h x (List.mem_cons_of_mem a hx))]

lemma dropWhile_head_not {α : Type} (p : α → Bool) (l : List α) (c : α) (t : List α)
    (h : l.dropWhile p = c :: t) : p c = false := by
  induction l with
  | nil => simp at h
  | cons a t' ih =>
    by_cases ha : p a
    · rw [List.dropWhile_cons_of_pos ha] at h
      exact ih h
    · rw [List.dropWhile_cons_of_neg ha] at h
      injection h with h1 h2
      subst h1
      simpa using ha

lemma dropWhile_of_takeWhile_nil {α : Type} (p : α → Bool) (l : List α)
    (h : l.takeWhile p = []) : l.dropWhile p = l := by
  cases l with
  | nil => rfl
  | cons a t =>
    rw [List.takeWhile_cons] at h
    by_cases ha : p a
    · simp [ha] at h
    · exact List.dropWhile_cons_of_neg ha

lemma takeWhile_cons_inv {α : Type} (p : α → Bool) (l : List α) (c : α) (t : List α)
    (h : l.takeWhile p = c :: t) : ∃ l', l = c :: l' ∧ p c = true := by
  cases l with
  | nil => simp at h
  | cons a t' =>
    rw [List.takeWhile_cons] at h
    by_cases ha : p a
    · rw [if_pos ha] at h
      injection h with h1 h2
      subst h1
      exact ⟨t', rfl, ha⟩
    · rw [if_neg ha] at h
      simp at h

lemma pySpace_not_quota_num {c : Char} (h : isPySpace c = true) :
    isQuotaNumChar c = false := by
  simp [isPySpace] at h
  rcases h with ((((h | h) | h) | h) | h) | h <;> subst h <;> decide

lemma pySpace_not_word {c : Char} (h : isPySpace c = true) :
    isPyWordChar c = false := by
  simp [isPySpace] at h
  rcases h with ((((h | h) | h) | h) | h) | h <;> subst h <;> decide

lemma pyWord_head_not_space {c : Char} (h : isPyWordChar c = true) :
    isPySpace c = false := by
  cases hb : isPySpace c
  · rfl
  · exact absurd h (by rw [pySpace_not_word hb]; simp)

/-- The quota regex groups of any input decomposed as
`group1 ++ spaces ++ group2 ++ rest`, with the maximality conditions at each
boundary. -/
lemma quotaScan_split (num sp word rest : List Char)
    (hnumall : ∀ a ∈ num, isQuotaNumChar a = true)
    (hnumne : num ≠ [])
    (hspall : ∀ a ∈ sp, isPySpace a = true)
    (hwordall : ∀ a ∈ word, isPyWordChar a = true)
    (hb1 : ∀ c t, sp ++ word ++ rest = c :: t → isQuotaNumChar c = false)
    (hb2 : ∀ c t, word ++ rest = c :: t → isPySpace c = false)
    (hb3 : ∀ c t, rest = c :: t → isPyWordChar c = false) :
    quotaScan (num ++ sp ++ word ++ rest) = some (num, word) := by
  have htail1 : (sp ++ word ++ rest).takeWhile isQuotaNumChar = [] := by
    cases hx : sp ++ word ++ rest with
    | nil => rfl
    | cons c t => simp [List.takeWhile_cons, hb1 c t hx]
  have htail2 : (word ++ rest).takeWhile isPySpace = [] := by
    cases hx : word ++ rest with
    | nil => rfl
    | cons c t => simp [List.takeWhile_cons, hb2 c t hx]
  have htail3 : rest.takeWhile isPyWordChar = [] := by
    cases hx : rest with
    | nil => rfl
    | cons c t => simp [List.takeWhile_cons, hb3 c t hx]
  have e0 : num ++ sp ++ word ++ rest = num ++ (sp ++ word ++ rest) := by
    simp [List.append_assoc]
  have e1 : (num ++ sp ++ word ++ rest).takeWhile isQuotaNumChar = num := by
    rw [e0, takeWhile_append_all _ _ _ hnumall, htail1, List.append_nil]
  have e2 : (num ++ sp ++ word ++ rest).dropWhile isQuotaNumChar = sp ++ word ++ rest := by
    rw [e0, dropWhile_append_all _ _ _ hnumall,
      dropWhile_of_takeWhile_nil _ _ htail1]
  have e3 : (sp ++ word ++ rest).dropWhile isPySpace = word ++ rest := by
    rw [List.append_assoc, dropWhile_append_all _ _ _ hspall,
      dropWhile_of_takeWhile_nil _ _ htail2]
  have e4 : (word ++ rest).takeWhile isPyWordChar = word := by
    rw [takeWhile_append_all _ _ _ hwordall, htail3, List.append_nil]
  rw [quotaScan, if_neg (by rw [e1]; exact hnumne), e1, e2, e3, e4]

/-- When the quota regex matches, the scan of the consumed prefix agrees with
the scan of the whole input, and the consumed prefix really is a prefix. -/
lemma quota_consumed_spec (cs : List Char) (h : cs.takeWhile isQuotaNumChar ≠ []) :
    quotaScan cs = some (cs.takeWhile isQuotaNumChar, quotaWord cs) ∧
    quotaScan (quotaConsumed cs) = some (cs.takeWhile isQuotaNumChar, quotaWord cs) ∧
    ∃ rest, cs = quotaConsumed cs ++ rest := by
  have d1 : cs.takeWhile isQuotaNumChar ++ cs.dropWhile isQuotaNumChar = cs :=
    List.takeWhile_append_dropWhile _ _
  have d2 : (cs.dropWhile isQuotaNumChar).takeWhile isPySpace
      ++ (cs.dropWhile isQuotaNumChar).dropWhile isPySpace = cs.dropWhile isQuotaNumChar :=
    List.takeWhile_append_dropWhile _ _
  have d3 : ((cs.dropWhile isQuotaNumChar).dropWhile isPySpace).takeWhile isPyWordChar
      ++ ((cs.dropWhile isQuotaNumChar).dropWhile isPySpace).dropWhile isPyWordChar
      = (cs.dropWhile isQuotaNumChar).dropWhile isPySpace :=
    List.takeWhile_append_dropWhile _ _
  have hcs : cs = cs.takeWhile isQuotaNumChar
      ++ (cs.dropWhile isQuotaNumChar).takeWhile isPySpace
      ++ ((cs.dropWhile isQuotaNumChar).dropWhile isPySpace).takeWhile isPyWordChar
      ++ ((cs.dropWhile isQuotaNumChar).dropWhile isPySpace).dropWhile isPyWordChar := by
    simp only [List.append_assoc]
    rw [d3, d2, d1]
  have hb1 : ∀ c t, (cs.dropWhile isQuotaNumChar).takeWhile isPySpace
      ++ ((cs.dropWhile isQuotaNumChar).dropWhile isPySpace).takeWhile isPyWordChar
      ++ ((cs.dropWhile isQuotaNumChar).dropWhile isPySpace).dropWhile isPyWordChar
      = c :: t → isQuotaNumChar c = false := by
    intro c t he
    apply dropWhile_head_not isQuotaNumChar cs c t
    rw [← he]
    simp only [List.append_assoc]
    rw [d3, d2]
  have hb2 : ∀ c t, ((cs.dropWhile isQuotaNumChar).dropWhile isPySpace).takeWhile isPyWordChar
      ++ ((cs.dropWhile isQuotaNumChar).dropWhile isPySpace).dropWhile isPyWordChar
      = c :: t → isPySpace c = false := by
    intro c t he
    apply dropWhile_head_not isPySpace (cs.dropWhile isQuotaNumChar) c t
    rw [← he, d3]
  have hb3 : ∀ c t, ((cs.dropWhile isQuotaNumChar).dropWhile isPySpace).dropWhile isPyWordChar
      = c :: t → isPyWordChar c = false := by
    intro c t he
    exact dropWhile_head_not isPyWordChar ((cs.dropWhile isQuotaNumChar).dropWhile isPySpace)
      c t he
  have hnumall : ∀ a ∈ cs.takeWhile isQuotaNumChar, isQuotaNumChar a = true :=
    fun a ha => List.mem_takeWhile_imp ha
  have hspall : ∀ a ∈ (cs.dropWhile isQuotaNumChar).takeWhile isPySpace, isPySpace a = true :=
    fun a ha => List.mem_takeWhile_imp ha
  have hwordall : ∀ a ∈ ((cs.dropWhile isQuotaNumChar).dropWhile isPySpace).takeWhile isPyWordChar,
      isPyWordChar a = true :=
    fun a ha => List.mem_takeWhile_imp ha
  refine ⟨by rw [quotaScan, if_neg h]; rfl, ?_, ?_⟩
  · have hq : quotaConsumed cs = cs.takeWhile isQuotaNumChar
        ++ (cs.dropWhile isQuotaNumChar).takeWhile isPySpace
        ++ ((cs.dropWhile isQuotaNumChar).dropWhile isPySpace).takeWhile isPyWordChar
        ++ [] := by
      rw [quotaConsumed, List.append_nil]
    rw [hq]
    have hres := quotaScan_split (cs.takeWhile isQuotaNumChar)
      ((cs.dropWhile isQuotaNumChar).takeWhile isPySpace)
      (((cs.dropWhile isQuotaNumChar).dropWhile isPySpace).takeWhile isPyWordChar)
      [] hnumall h hspall hwordall
      (by
        intro c t he
        rw [List.append_nil] at he
        apply hb1 c (t ++ ((cs.dropWhile isQuotaNumChar).dropWhile isPySpace).dropWhile isPyWordChar)
        simp only [List.append_assoc] at he ⊢
        rw [← List.append_assoc, he]
        simp)
      (by
        intro c t he
        rw [List.append_nil] at he
        apply hb2 c (t ++ ((cs.dropWhile isQuotaNumChar).dropWhile isPySpace).dropWhile isPyWordChar)
        rw [he]
        simp)
      (by intro c t he; exact absurd he (by simp))
    exact hres
  · exact ⟨((cs.dropWhile isQuotaNumChar).dropWhile isPySpace).dropWhile isPyWordChar,
      by rw [quotaConsumed]; simpa only [List.append_assoc] using hcs⟩

/-- `parse_quota` computes the same result on the consumed prefix as on the
whole input. -/
lemma parseQuotaList_consumed (cs : List Char) (h : cs.takeWhile isQuotaNumChar ≠ []) :
    parseQuotaList (quotaConsumed cs) = parseQuotaList cs := by
  obtain ⟨h1, h2, -⟩ := quota_consumed_spec cs h
  simp [parseQuotaList, h1, h2]

/-- Exact characterisation of the inputs `parse_quota` rejects. -/
lemma parseQuotaList_error_iff (cs : List Char) :
    (∃ e, parseQuotaList cs = .error e) ↔
      (cs.takeWhile isQuotaNumChar = [] ∨
       pyFloatParts (cs.takeWhile isQuotaNumChar) = none ∨
       (quotaWord cs ≠ [] ∧ pyCasefold (quotaWord cs) ≠ ['k', 'b'] ∧
        pyCasefold (quotaWord cs) ≠ ['m', 'b'] ∧ pyCasefold (quotaWord cs) ≠ ['g', 'b'])) := by
  by_cases hnum : cs.takeWhile isQuotaNumChar = []
  · simp [parseQuotaList, quotaScan, hnum]
  · have hscan : quotaScan cs = some (cs.takeWhile isQuotaNumChar, quotaWord cs) := by
      rw [quotaScan, if_neg hnum]; rfl
    cases hfp : pyFloatParts (cs.takeWhile isQuotaNumChar) with
    | none => simp [parseQuotaList, hscan, pyFloatOfToken, hfp, hnum]
    | some pr =>
      have hne : pyFloatParts (cs.takeWhile isQuotaNumChar) ≠ none := by rw [hfp]; simp
      by_cases hw : quotaWord cs = []
      · simp [parseQuotaList, hscan, pyFloatOfToken, hfp, hnum, hw, hne]
      · by_cases hkb : pyCasefold (quotaWord cs) = ['k', 'b']
        · simp [parseQuotaList, hscan, pyFloatOfToken, hfp, hnum, hw, hkb, hne]
        · by_cases hmb : pyCasefold (quotaWord cs) = ['m', 'b']
          · simp [parseQuotaList, hscan, pyFloatOfToken, hfp, hnum, hw, hkb, hmb, hne]
          · by_cases hgb : pyCasefold (quotaWord cs) = ['g', 'b']
            · simp [parseQuotaList, hscan, pyFloatOfToken, hfp, hnum, hw, hkb, hmb, hgb, hne]
            · simp [parseQuotaList, hscan, pyFloatOfToken, hfp, hnum, hw, hkb, hmb, hgb, hne]

/-! ### Claim C10 -/

/-- C10: `parse_quota` matches only a leading prefix of its input (a numeric
token, optional whitespace, one optional word token) and ignores everything
after it — so `"10kb extra"` is accepted with value 10000 — and it rejects
exactly when the leading numeric token is absent, the numeric token fails
float conversion, or the immediately following word token is not kb/mb/gb
(case-insensitive). -/
theorem parse_quota_prefix_semantics :
    parse_quota "10kb extra" = .ok 10000 ∧
    (∀ cs : List Char, cs.takeWhile isQuotaNumChar ≠ [] →
      parseQuotaList (quotaConsumed cs) = parseQuotaList cs ∧
      ∃ rest, cs = quotaConsumed cs ++ rest) ∧
    (∀ cs : List Char,
      (∃ e, parseQuotaList cs = .error e) ↔
        (cs.takeWhile isQuotaNumChar = [] ∨
         pyFloatParts (cs.takeWhile isQuotaNumChar) = none ∨
         (quotaWord cs ≠ [] ∧ pyCasefold (quotaWord cs) ≠ ['k', 'b'] ∧
          pyCasefold (quotaWord cs) ≠ ['m', 'b'] ∧
          pyCasefold (quotaWord cs) ≠ ['g', 'b']))) := by
  refine ⟨?_, fun cs h => ⟨parseQuotaList_consumed cs h, (quota_consumed_spec cs h).2.2⟩,
    parseQuotaList_error_iff⟩
  have hp := parseQuotaList_eval_kb "10kb extra".toList ['1', '0'] ['k', 'b'] 10 0
    (by decide) (by decide) (by decide) (by decide)
  rw [parse_quota, hp]
  congr 1
  norm_num

/-- Witness for C10 at the concrete input `"10kb extra"`. -/
theorem parse_quota_prefix_semantics_witness :
    parseQuotaList (quotaConsumed ("10kb extra".toList))
      = parseQuotaList ("10kb extra".toList) ∧
    ∃ rest, "10kb extra".toList = quotaConsumed ("10kb extra".toList) ++ rest :=
  parse_quota_prefix_semantics.2.1 ("10kb extra".toList) (by decide)

/-! ### Helper lemmas: Info and Select navigation -/

lemma infoNavigate_mem (size h pos num : ℤ) (hb : 0 ≤ size - h + 4) (h0 : 0 ≤ pos)
    (h1 : pos ≤ size - h + 4) :
    0 ≤ infoNavigate size h pos num ∧ infoNavigate size h pos num ≤ size - h + 4 := by
  unfold infoNavigate
  split_ifs <;> constructor <;> omega

lemma infoRunPos_mem (size h : ℤ) (evs : List ScrollEv) :
    ∀ pos : ℤ, 0 ≤ size - h + 4 → 0 ≤ pos → pos ≤ size - h + 4 →
      0 ≤ infoRunPos size h pos evs ∧ infoRunPos size h pos evs ≤ size - h + 4 := by
  induction evs with
  | nil =>
    intro pos hb h0 h1
    exact ⟨h0, h1⟩
  | cons e rest ih =>
    intro pos hb h0 h1
    have hstep := infoNavigate_mem size h pos (scrollDelta e) hb h0 h1
    have heq : infoRunPos size h pos (e :: rest)
        = infoRunPos size h (infoNavigate size h pos (scrollDelta e)) rest := rfl
    rw [heq]
    exact ih _ hb hstep.1 hstep.2

lemma infoNavigate_neg (size h pos num : ℤ) (hb : size - h + 4 < 0) :
    infoNavigate size h pos num = size - h + 4 := by
  unfold infoNavigate
  split_ifs <;> omega

lemma infoRunPos_from_bound (size h : ℤ) (hb : size - h + 4 < 0) :
    ∀ evs : List ScrollEv, infoRunPos size h (size - h + 4) evs = size - h + 4 := by
  intro evs
  induction evs with
  | nil => rfl
  | cons e rest ih =>
    have heq : infoRunPos size h (size - h + 4) (e :: rest)
        = infoRunPos size h (infoNavigate size h (size - h + 4) (scrollDelta e)) rest := rfl
    rw [heq, infoNavigate_neg size h _ _ hb]
    exact ih

lemma selNavigate_mem (L : ℕ) (pos num : ℤ) (hL : 1 ≤ L) (h0 : 0 ≤ pos)
    (h1 : pos ≤ (L : ℤ) - 1) :
    0 ≤ selNavigate L pos num ∧ selNavigate L pos num ≤ (L : ℤ) - 1 := by
  unfold selNavigate
  split_ifs <;> constructor <;> omega

lemma selRunPos_mem (L : ℕ) (hL : 1 ≤ L) (evs : List ScrollEv) :
    ∀ pos : ℤ, 0 ≤ pos → pos ≤ (L : ℤ) - 1 →
      0 ≤ selRunPos L pos evs ∧ selRunPos L pos evs ≤ (L : ℤ) - 1 := by
  induction evs with
  | nil =>
    intro pos h0 h1
    exact ⟨h0, h1⟩
  | cons e rest ih =>
    intro pos h0 h1
    have hstep := selNavigate_mem L pos (scrollDelta e) hL h0 h1
    have heq : selRunPos L pos (e :: rest)
        = selRunPos L (selNavigate L pos (scrollDelta e)) rest := rfl
    rw [heq]
    exact ih _ hstep.1 hstep.2

/-! ### Claim C2 (corrected) -/

/-- Counterexample to C2 as stated: with rendered content height 0 and
viewport height 10 (content shorter than the viewport), a single Down event
drives the Info scroll offset to `0 - 10 + 4 = -6`, which is negative,
while the claim requires it to stay in `[0, max 0 (0 - 10 + 4)] = [0, 0]`. -/
theorem info_scroll_claim_counterexample :
    infoRunPos 0 10 0 [ScrollEv.down] = -6 ∧ infoRunPos 0 10 0 [ScrollEv.down] < 0 := by
  constructor <;> decide

/-- C2 amended: the Info scroll offset stays in
`[0, contentHeight - viewportHeight + 4]` provided that upper clamp target
is nonnegative and the offset starts inside the interval; when the content
is shorter than the viewport margin (`contentHeight - viewportHeight + 4 <
0`), every scroll event instead forces the offset to that negative value. -/
theorem info_scroll_clamp_amended (size h pos : ℤ) (evs : List ScrollEv) :
    (0 ≤ size - h + 4 → 0 ≤ pos → pos ≤ size - h + 4 →
      0 ≤ infoRunPos size h pos evs ∧ infoRunPos size h pos evs ≤ size - h + 4) ∧
    (size - h + 4 < 0 → evs ≠ [] → infoRunPos size h pos evs = size - h + 4) := by
  constructor
  · intro hb h0 h1
    exact infoRunPos_mem size h evs pos hb h0 h1
  · intro hb hne
    cases evs with
    | nil => exact absurd rfl hne
    | cons e rest =>
      have heq : infoRunPos size h pos (e :: rest)
          = infoRunPos size h (infoNavigate size h pos (scrollDelta e)) rest := rfl
      rw [heq, infoNavigate_neg size h pos (scrollDelta e) hb]
      exact infoRunPos_from_bound size h hb rest

/-- Witness for the amended C2 at concrete inputs on both sides of the
split. -/
theorem info_scroll_clamp_amended_witness :
    (0 ≤ infoRunPos 20 10 0 [ScrollEv.down] ∧
      infoRunPos 20 10 0 [ScrollEv.down] ≤ 20 - 10 + 4) ∧
    infoRunPos 0 10 0 [ScrollEv.down] = 0 - 10 + 4 :=
  ⟨(info_scroll_clamp_amended 20 10 0 [ScrollEv.down]).1 (by norm_num) (by norm_num)
      (by norm_num),
    (info_scroll_clamp_amended 0 10 0 [ScrollEv.down]).2 (by norm_num) (by simp)⟩

/-! ### Claim C4 -/

/-- C4: for every Select built from any caller item list (so including the
synthetic return entry) and every finite sequence of Up/Down/PageUp/PageDown
events, the highlighted index stays within `[0, itemCount - 1]`, clamping at
both ends with no wraparound. -/
theorem select_navigate_in_range {α : Type} (items : List (String × α)) (topTitle : String)
    (evs : List ScrollEv) :
    0 ≤ selRunPos (selectItems items topTitle).length 0 evs ∧
    selRunPos (selectItems items topTitle).length 0 evs
      ≤ ((selectItems items topTitle).length : ℤ) - 1 := by
  have hL : 1 ≤ (selectItems items topTitle).length := by simp [selectItems]
  exact selRunPos_mem _ hL evs 0 le_rfl (by omega)

/-! ### Helper lemmas: Confirm and SingleInput run loops -/

lemma confirmRun_append (pre : List ℕ) :
    ∀ (b : Bool) (rest : List ℕ),
      (∀ x ∈ pre, ¬(x = KEY_ENTER ∨ x = 10) ∧ ¬(x = 113 ∨ x = 81)) →
      confirmRun b (pre ++ rest) = confirmRun (List.foldl confirmStep b pre) rest := by
  induction pre with
  | nil => intro b rest _; rfl
  | cons k t ih =>
    intro b rest h
    have hk := h k (List.mem_cons_self k t)
    have h1 : confirmRun b ((k :: t) ++ rest) = confirmRun (confirmStep b k) (t ++ rest) := by
      simp only [List.cons_append, confirmRun]
      rw [if_neg hk.1, if_neg hk.2]
      rfl
    rw [h1, List.foldl_cons]
    exact ih (confirmStep b k) rest (fun x hx => h x (List.mem_cons_of_mem k hx))

lemma siRun_append (pre : List ℕ) :
    ∀ (st : SIState) (rest : List ℕ),
      (∀ x ∈ pre, ¬(x = KEY_ENTER ∨ x = 10)) →
      siRun st (pre ++ rest) = siRun (List.foldl siStep st pre) rest := by
  induction pre with
  | nil => intro st rest _; rfl
  | cons k t ih =>
    intro st rest h
    have hk := h k (List.mem_cons_self k t)
    have h1 : siRun st ((k :: t) ++ rest) = siRun (siStep st k) (t ++ rest) := by
      simp only [List.cons_append, siRun]
      rw [if_neg hk]
      rfl
    rw [h1, List.foldl_cons]
    exact ih (siStep st k) rest (fun x hx => h x (List.mem_cons_of_mem k hx))

lemma si_replay_general (evs : List SIEv) :
    ∀ buf : String,
      (∀ e ∈ evs, sievValid e = true) →
      List.foldl siStep { inputActive := true, inputString := buf } (evs.map sievKey)
        = { inputActive := true, inputString := replay buf evs } := by
  induction evs with
  | nil => intro buf _; rfl
  | cons e rest ih =>
    intro buf h
    have hv := h e (List.mem_cons_self e rest)
    have hrest : ∀ x ∈ rest, sievValid x = true := fun x hx => h x (List.mem_cons_of_mem e hx)
    cases e with
    | ch c =>
      have hg : pyIsGraph c = true := hv
      have hb : 33 ≤ c ∧ c ≤ 126 := by
        simpa [pyIsGraph] using hg
      have hc1 : ¬ c = KEY_UP := by rw [KEY_UP]; omega
      have hc2 : ¬ c = KEY_DOWN := by rw [KEY_DOWN]; omega
      have hstep : siStep { inputActive := true, inputString := buf } c
          = { inputActive := true, inputString := buf.push (Char.ofNat c) } := by
        rw [siStep, if_neg hc1, if_neg hc2, if_pos ⟨rfl, hg⟩]
      simp only [List.map_cons, List.foldl_cons, sievKey, hstep, replay]
      exact ih (buf.push (Char.ofNat c)) hrest
    | bksp code =>
      have hcode : code = KEY_BACKSPACE ∨ code = 8 := by
        simpa [sievValid, KEY_BACKSPACE] using hv
      have hc1 : ¬ code = KEY_UP := by
        rcases hcode with h2 | h2 <;> subst h2 <;> decide
      have hc2 : ¬ code = KEY_DOWN := by
        rcases hcode with h2 | h2 <;> subst h2 <;> decide
      have hg : ¬ ((true : Bool) ∧ pyIsGraph code) := by
        rcases hcode with h2 | h2 <;> subst h2 <;> simp [pyIsGraph, KEY_BACKSPACE] <;> omega
      have hstep : siStep { inputActive := true, inputString := buf } code
          = { inputActive := true, inputString := buf.dropRight 1 } := by
        by_cases hbuf : buf = ""
        · subst hbuf
          rw [siStep, if_neg hc1, if_neg hc2, if_neg hg, if_neg]
          · rfl
          · intro hcontra
            exact hcontra.2.2 rfl
        · rw [siStep, if_neg hc1, if_neg hc2, if_neg hg, if_pos ⟨rfl, hcode, hbuf⟩]
      simp only [List.map_cons, List.foldl_cons, sievKey, hstep, replay]
      exact ih (buf.dropRight 1) hrest

/-! ### Claim C8 -/

/-- C8: a Confirm session yields exactly one of option A, option B or the
distinguished no-decision value: the highlight starts on A, Up/Down set it
to A/B, Enter commits the currently highlighted option, and `q`/`Q` returns
`OPTNONE`, which is distinct from explicitly choosing option A. -/
theorem confirm_result_semantics :
    confirmInit = true ∧
    (∀ b : Bool, confirmStep b KEY_UP = true ∧ confirmStep b KEY_DOWN = false) ∧
    (∀ (pre rest : List ℕ) (k : ℕ),
      (∀ x ∈ pre, ¬(x = KEY_ENTER ∨ x = 10) ∧ ¬(x = 113 ∨ x = 81)) →
      ((k = KEY_ENTER ∨ k = 10) →
        confirmRun confirmInit (pre ++ k :: rest)
          = some (if List.foldl confirmStep confirmInit pre then ConfirmResult.OPTA
              else ConfirmResult.OPTB)) ∧
      ((k = 113 ∨ k = 81) →
        confirmRun confirmInit (pre ++ k :: rest) = some ConfirmResult.OPTNONE)) ∧
    ConfirmResult.OPTNONE ≠ ConfirmResult.OPTA ∧
    (∀ (keys : List ℕ) (r : ConfirmResult),
      confirmRun confirmInit keys = some r →
      r = ConfirmResult.OPTA ∨ r = ConfirmResult.OPTB ∨ r = ConfirmResult.OPTNONE) := by
  refine ⟨rfl, fun b => by cases b <;> exact ⟨by decide, by decide⟩, ?_, by decide,
    fun keys r _ => by cases r <;> simp⟩
  intro pre rest k hpre
  have happ := confirmRun_append pre confirmInit (k :: rest) hpre
  constructor
  · intro hk
    rw [happ]
    simp only [confirmRun]
    rw [if_pos hk]
  · intro hk
    have hk2 : ¬ (k = KEY_ENTER ∨ k = 10) := by
      rcases hk with h2 | h2 <;> subst h2 <;> decide
    rw [happ]
    simp only [confirmRun]
    rw [if_neg hk2, if_pos hk]

/-- Witness for C8: pressing Down then Enter commits option B; pressing `q`
immediately yields the no-decision value. -/
theorem confirm_result_semantics_witness :
    confirmRun confirmInit ([KEY_DOWN] ++ KEY_ENTER :: [])
      = some (if List.foldl confirmStep confirmInit [KEY_DOWN] then ConfirmResult.OPTA
          else ConfirmResult.OPTB) ∧
    confirmRun confirmInit ([] ++ 113 :: []) = some ConfirmResult.OPTNONE :=
  ⟨(confirm_result_semantics.2.2.1 [KEY_DOWN] [] KEY_ENTER (by decide)).1 (Or.inl rfl),
    (confirm_result_semantics.2.2.1 [] [] 113 (by simp)).2 (Or.inl rfl)⟩

/-! ### Claim C3 -/

/-- C3: a SingleInput session ended by Enter yields the accumulated buffer
exactly when the input field is focused at commit time and the distinct
`none` ("cancelled") exactly when the cancel affordance is focused; an empty
committed buffer (`some ""`) is distinguishable from cancellation
(`none`). -/
theorem singleinput_commit_result (pre rest : List ℕ) (k : ℕ)
    (hk : k = KEY_ENTER ∨ k = 10)
    (hpre : ∀ x ∈ pre, ¬(x = KEY_ENTER ∨ x = 10)) :
    siRun siInit (pre ++ k :: rest)
      = some (if (List.foldl siStep siInit pre).inputActive
          then some (List.foldl siStep siInit pre).inputString else none) ∧
    (some "" : Option String) ≠ none := by
  refine ⟨?_, by simp⟩
  rw [siRun_append pre siInit (k :: rest) hpre]
  simp only [siRun]
  rw [if_pos hk]

/-- Witness for C3: typing `a`, moving focus to the cancel affordance, then
pressing Enter. -/
theorem singleinput_commit_result_witness :
    siRun siInit ([97, KEY_DOWN] ++ KEY_ENTER :: [])
      = some (if (List.foldl siStep siInit [97, KEY_DOWN]).inputActive
          then some (List.foldl siStep siInit [97, KEY_DOWN]).inputString else none) ∧
    (some "" : Option String) ≠ none :=
  singleinput_commit_result [97, KEY_DOWN] [] KEY_ENTER (Or.inl rfl) (by decide)

/-! ### Claim C5 -/

/-- C5: delivering any sequence of printable-graphic-character and Backspace
events to a focused SingleInput leaves the buffer equal to the left-to-right
replay in which each character appends and each Backspace removes exactly
one trailing character (a no-op on the empty buffer); the input field stays
focused throughout. -/
theorem singleinput_buffer_replay (evs : List SIEv)
    (hv : ∀ e ∈ evs, sievValid e = true) :
    (List.foldl siStep siInit (evs.map sievKey)).inputString = replay "" evs ∧
    (List.foldl siStep siInit (evs.map sievKey)).inputActive = true := by
  have h := si_replay_general evs "" hv
  rw [show siInit = { inputActive := true, inputString := "" } from rfl, h]
  exact ⟨rfl, rfl⟩

/-- Witness for C5: typing `a`, `b`, then Backspace. -/
theorem singleinput_buffer_replay_witness :
    (List.foldl siStep siInit
        (([SIEv.ch 97, SIEv.ch 98, SIEv.bksp 263]).map sievKey)).inputString
      = replay "" [SIEv.ch 97, SIEv.ch 98, SIEv.bksp 263] ∧
    (List.foldl siStep siInit
        (([SIEv.ch 97, SIEv.ch 98, SIEv.bksp 263]).map sievKey)).inputActive = true :=
  singleinput_buffer_replay [SIEv.ch 97, SIEv.ch 98, SIEv.bksp 263] (by decide)

/-! ### Helper lemmas: Menu digit accelerators -/

lemma menuDigitScan_skip (k : ℕ) (l1 l2 : List ℕ)
    (h : ∀ i ∈ l1, i ≤ 9 ∧ ¬ k = 48 + i) :
    menuDigitScan k (l1 ++ l2) = menuDigitScan k l2 := by
  induction l1 with
  | nil => rfl
  | cons i t ih =>
    have hi := h i (List.mem_cons_self i t)
    simp only [List.cons_append, menuDigitScan]
    rw [if_neg (by omega), if_neg hi.2]
    exact ih (fun x hx => h x (List.mem_cons_of_mem i hx))

lemma menuDigitScan_error_persists (k : ℕ) (l l2 : List ℕ)
    (h : menuDigitScan k l = .error ()) : menuDigitScan k (l ++ l2) = .error () := by
  induction l with
  | nil => simp [menuDigitScan] at h
  | cons i t ih =>
    rw [List.cons_append]
    simp only [menuDigitScan] at h ⊢
    by_cases h9 : 9 < i
    · rw [if_pos h9]
    · rw [if_neg h9] at h ⊢
      by_cases hk : k = 48 + i
      · rw [if_pos hk] at h
        exact absurd h (by simp)
      · rw [if_neg hk] at h ⊢
        exact ih h

lemma pyRange1_split_last (L : ℕ) (hL : 1 ≤ L) :
    pyRange1 L = pyRange1 (L - 1) ++ [L] := by
  obtain ⟨m, rfl⟩ : ∃ m, L = m + 1 := ⟨L - 1, by omega⟩
  simp [pyRange1, List.range_succ]

lemma pyRange1_mem_bounds (L i : ℕ) (hi : i ∈ pyRange1 L) : 1 ≤ i ∧ i ≤ L := by
  simp only [pyRange1, List.mem_map, List.mem_range] at hi
  obtain ⟨a, ha, rfl⟩ := hi
  omega

lemma menuDigitScan_last (L : ℕ) (h1 : 1 ≤ L) (h9 : L ≤ 9) :
    menuDigitScan (48 + L) (pyRange1 L) = .ok true := by
  rw [pyRange1_split_last L h1,
    menuDigitScan_skip (48 + L) (pyRange1 (L - 1)) [L]
      (fun i hi => by
        have := pyRange1_mem_bounds (L - 1) i hi
        exact ⟨by omega, by omega⟩)]
  simp only [menuDigitScan]
  rw [if_neg (by omega)]
  simp

lemma menuDigitScan_overflow (k L : ℕ) (hL : 10 ≤ L) (hk : ¬ (49 ≤ k ∧ k ≤ 57)) :
    menuDigitScan k (pyRange1 L) = .error () := by
  obtain ⟨m, rfl⟩ : ∃ m, L = 10 + m := ⟨L - 10, by omega⟩
  clear hL
  induction m with
  | zero =>
    rw [pyRange1_split_last (10 + 0) (by omega)]
    rw [menuDigitScan_skip k (pyRange1 (10 + 0 - 1)) [10 + 0]
      (fun i hi => by
        have := pyRange1_mem_bounds (10 + 0 - 1) i hi
        exact ⟨by omega, by omega⟩)]
    simp [menuDigitScan]
  | succ m ih =>
    have e : 10 + (m + 1) - 1 = 10 + m := by omega
    have hsplit := pyRange1_split_last (10 + (m + 1)) (by omega)
    rw [e] at hsplit
    rw [hsplit]
    exact menuDigitScan_error_persists k _ _ ih

lemma menuStep_enter_last (cbExit : ℤ → Bool) (L : ℕ) :
    menuStep cbExit L ((L : ℤ) - 1) KEY_ENTER = .exit [] := by
  rw [menuStep, if_pos (Or.inl rfl), if_pos rfl]

lemma menuStep_digit_last (cbExit : ℤ → Bool) (L : ℕ) (pos : ℤ)
    (h1 : 1 ≤ L) (h9 : L ≤ 9) :
    menuStep cbExit L pos (48 + L) = .exit [] := by
  have hne : ¬ (48 + L = KEY_ENTER ∨ 48 + L = 10) := by
    rw [KEY_ENTER]
    omega
  have hidx : ((48 + L : ℕ) : ℤ) - 48 - 1 = (L : ℤ) - 1 := by
    push_cast
    ring
  rw [menuStep, if_neg hne, menuDigitScan_last L h1 h9]
  rw [show ((match (Except.ok true : Except Unit Bool) with
    | .error _ => MenuOut.typeErr
    | .ok true =>
      if ((48 + L : ℕ) : ℤ) - 48 - 1 = (L : ℤ) - 1 then MenuOut.exit []
      else if cbExit (((48 + L : ℕ) : ℤ) - 48 - 1) then MenuOut.exit [((48 + L : ℕ) : ℤ) - 48 - 1]
      else MenuOut.cont pos [((48 + L : ℕ) : ℤ) - 48 - 1]
    | .ok false =>
      if (48 + L : ℕ) = KEY_UP then MenuOut.cont (menuNavigate L pos (-1)) []
      else if (48 + L : ℕ) = KEY_DOWN then MenuOut.cont (menuNavigate L pos 1) []
      else if (48 + L : ℕ) = 113 ∨ (48 + L : ℕ) = 81 then MenuOut.exit []
      else MenuOut.cont pos []) : MenuOut)
    = if ((48 + L : ℕ) : ℤ) - 48 - 1 = (L : ℤ) - 1 then MenuOut.exit []
      else if cbExit (((48 + L : ℕ) : ℤ) - 48 - 1) then MenuOut.exit [((48 + L : ℕ) : ℤ) - 48 - 1]
      else MenuOut.cont pos [((48 + L : ℕ) : ℤ) - 48 - 1] from rfl]
  rw [if_pos hidx]

/-! ### Claim C1 -/

/-- C1: a Menu built over N real items exposes exactly N+1 selectable rows
(the synthetic exit row is appended at construction), and selecting that
last row — by navigating to it and pressing Enter, or by its accelerator
digit whenever one exists (row count at most 9) — terminates `Menu.run`
immediately with no callback invocation at all. -/
theorem menu_exit_row {α : Type} (realItems : List (String × α)) (top : Option String)
    (cbAbort : α) (cbExit : ℤ → Bool) (rest : List ℕ) (pos : ℤ) :
    (menuInit realItems top cbAbort).length = realItems.length + 1 ∧
    menuRun cbExit (menuInit realItems top cbAbort).length
        (((menuInit realItems top cbAbort).length : ℤ) - 1) (KEY_ENTER :: rest)
      = .ok ([], true) ∧
    ((menuInit realItems top cbAbort).length ≤ 9 →
      menuRun cbExit (menuInit realItems top cbAbort).length pos
          ((48 + (menuInit realItems top cbAbort).length) :: rest)
        = .ok ([], true)) := by
  have hlen : (menuInit realItems top cbAbort).length = realItems.length + 1 := by
    simp [menuInit]
  refine ⟨hlen, ?_, ?_⟩
  · have hstep := menuStep_enter_last cbExit (menuInit realItems top cbAbort).length
    simp only [menuRun, hstep]
  · intro h9
    have h1 : 1 ≤ (menuInit realItems top cbAbort).length := by
      rw [hlen]
      omega
    have hstep := menuStep_digit_last cbExit (menuInit realItems top cbAbort).length pos h1 h9
    simp only [menuRun, hstep]

/-- Witness for C1 on a one-item menu: accelerator digit `2` selects the
synthetic exit row and terminates with no callback invoked. -/
theorem menu_exit_row_witness :
    menuRun (fun _ => false)
        (menuInit [("List domains", WorkflowCb.domainOverview)] none WorkflowCb.osAbort).length
        0
        ((48 + (menuInit [("List domains", WorkflowCb.domainOverview)] none
          WorkflowCb.osAbort).length) :: [])
      = .ok ([], true) :=
  (menu_exit_row [("List domains", WorkflowCb.domainOverview)] none WorkflowCb.osAbort
    (fun _ => false) [] 0).2.2 (by decide)

/-! ### Claim C9 -/

/-- C9: when a Menu has 10 or more rows, any key other than Enter that
matches none of the single-digit accelerator codes 49..57 makes `Menu.run`
raise a TypeError (from `ord` applied to a two-character string); the branch
is unreachable in the shipped program only because its three menus have 9,
9 and 5 rows respectively. -/
theorem menu_digit_typeerror :
    (∀ (cbExit : ℤ → Bool) (L : ℕ) (pos : ℤ) (k : ℕ),
      10 ≤ L → ¬ k = KEY_ENTER → ¬ k = 10 → ¬ (49 ≤ k ∧ k ≤ 57) →
      menuStep cbExit L pos k = .typeErr) ∧
    (menuInit main_menu_items none WorkflowCb.osAbort).length = 9 ∧
    (∀ t : String, (menuInit domain_menu_items (some t) WorkflowCb.osAbort).length = 9) ∧
    (∀ t t2 : String,
      (menuInit (blocked_menu_items t) (some t2) WorkflowCb.osAbort).length = 5) := by
  refine ⟨?_, by simp [menuInit, main_menu_items],
    fun t => by simp [menuInit, domain_menu_items],
    fun t t2 => by simp [menuInit, blocked_menu_items]⟩
  intro cbExit L pos k hL hk1 hk2 hk3
  have hne : ¬ (k = KEY_ENTER ∨ k = 10) := not_or.mpr ⟨hk1, hk2⟩
  rw [menuStep, if_neg hne, menuDigitScan_overflow k L hL hk3]

/-- Witness for C9: a 10-row menu receiving KEY_UP hits the TypeError. -/
theorem menu_digit_typeerror_witness :
    menuStep (fun _ => false) 10 0 KEY_UP = MenuOut.typeErr :=
  menu_digit_typeerror.1 (fun _ => false) 10 0 KEY_UP (by omega) (by decide) (by decide)
    (by decide)
